import Mathlib

/-!  Verification of the SCIM PATCH adapter logic of django_scim/adapters.py:
the attribute-path resolver (`split_path`), the operation normalizer
(`parse_path_and_value`), the PATCH dispatcher (`handle_operations`) and the
resource handlers (`SCIMUser.handle_replace`, `SCIMUser.parse_emails`,
`SCIMGroup.handle_add`).  Python values are embedded as the inductive `Value`;
Python exceptions as the `Err` type inside `Except`. -/

/-- A Python/JSON-style value as it appears in SCIM PATCH payloads:
`None`, strings, booleans, integers, lists and string-keyed dicts
(dicts modelled as association lists in insertion order, matching
Python dict iteration order). -/
inductive Value where
  | vNone
  | vStr (s : String)
  | vBool (b : Bool)
  | vInt (n : Int)
  | vList (xs : List Value)
  | vDict (kvs : List (String × Value))

/-- Python truthiness of a `Value` (`bool(v)`). -/
def truthy : Value → Bool
  | .vNone => false
  | .vStr s => !s.data.isEmpty
  | .vBool b => b
  | .vInt n => n != 0
  | .vList xs => !xs.isEmpty
  | .vDict kvs => !kvs.isEmpty

/-- Python `isinstance(v, dict)`. -/
def Value.isDict : Value → Bool
  | .vDict _ => true
  | _ => false

/-- Python `d.get(k)` on a dict, `None` when the key is missing.  The adapter
only ever calls `.get` on dict values; on non-dicts Python would raise
`AttributeError`, a case none of the analysed code paths reach, modelled
here as `None`. -/
def Value.get (v : Value) (k : String) : Value :=
  match v with
  | .vDict kvs =>
    match kvs.find? (fun kv => kv.1 == k) with
    | some kv => kv.2
    | none => .vNone
  | _ => .vNone

/-- Modelled from the spec: the error taxonomy of §7 (the module
`django_scim.exceptions` is not part of the analysed source).
`badRequest` carries the message and the optional `scim_type` keyword
(`BadRequestError(msg, scim_type=...)`); `notImplemented` models
`django_scim.exceptions.NotImplementedError` with its optional message.
The remaining constructors model untyped Python-level exceptions that the
adapter code can raise through dynamic typing (`TypeError`, `NameError`,
`ValueError`, `AttributeError`). -/
inductive Err where
  | badRequest (msg : String) (scimType : Option String)
  | notImplemented (msg : Option String)
  | typeError (msg : String)
  | nameError (msg : String)
  | valueError (msg : String)
  | attributeError (msg : String)
deriving DecidableEq

/-- A canonical attribute path: the `(attr, sub_attr, uri)` 3-tuple used as
`ATTR_MAP` key by scim2-filter-parser and the adapters. -/
abbrev AttrPath := String × Option String × Option String

/-- Result of `split_path`: either a single 3-tuple, or — modelled from the
spec §3 (`django_scim.types.ComplexAttrPath` is not part of the analysed
source) — a complex path object carrying the original path string and all
extracted fragments. -/
inductive PathResult where
  | simple (p : AttrPath)
  | complex (original : String) (fragments : List AttrPath)
deriving DecidableEq

/-- A key of the dict iterated by `SCIMUser.handle_replace`: either a plain
string (when a raw value dict reaches the loop unconverted) or a resolved
path (3-tuple or complex-path object) coming from `parse_path_and_value`
or from the `{path: value}` restructuring. -/
inductive HKey where
  | str (s : String)
  | simple (p : AttrPath)
  | complex (original : String) (fragments : List AttrPath)
deriving DecidableEq

/-- View a resolved path as a dict key. -/
def HKey.ofPath : PathResult → HKey
  | .simple p => .simple p
  | .complex o fs => .complex o fs

/-- The value component produced by `parse_path_and_value`: either the raw
value passed through, or — for the path-less dict form — the dict re-keyed
by resolved paths. -/
inductive NormValue where
  | raw (v : Value)
  | pathMap (entries : List (PathResult × Value))

/-- One PATCH operation as consumed by `handle_operations`:
`operation.get('op')`, `operation.get('path')`, `operation.get('value')`,
each `vNone` when the key is absent. -/
structure Operation where
  op : Value
  path : Value
  value : Value

/-- Python `str.lower()` restricted to how `Char.toLower` acts
(ASCII letters, which covers the SCIM op codes). -/
def pyStrLower (s : String) : String := ⟨s.data.map Char.toLower⟩

/-- Models `operation.get('op').lower()`: lower-cases a string, raises
`AttributeError` on any non-string (including `None` for a missing key). -/
def pyLower : Value → Except Err String
  | .vStr s => .ok (pyStrLower s)
  | _ => .error (.attributeError "object has no attribute lower")

/-- Python `str.strip()` (ASCII whitespace). -/
def pyStrip (s : String) : String :=
  ⟨((s.data.dropWhile Char.isWhitespace).reverse.dropWhile Char.isWhitespace).reverse⟩

/-- Digit-string to number, the core of Python `int(str)`. -/
def digitsToNat (cs : List Char) : Option Nat :=
  if cs.isEmpty then none
  else if cs.all Char.isDigit then
    some (cs.foldl (fun n c => n * 10 + (c.toNat - 48)) 0)
  else none

/-- Python `int(v)`: identity on ints, `True`/`False` to 1/0, decimal string
parsing (optionally signed; the surrounding-whitespace tolerance of Python
is irrelevant to the analysed inputs), `ValueError` on a malformed string
and `TypeError` on other types. -/
def pyInt : Value → Except Err Int
  | .vInt n => .ok n
  | .vBool b => .ok (if b then 1 else 0)
  | .vStr s =>
    (match s.data with
     | '-' :: cs =>
       match digitsToNat cs with
       | some n => .ok (-(n : Int))
       | none => .error (.valueError "invalid literal for int")
     | cs =>
       match digitsToNat cs with
       | some n => .ok ((n : Int))
       | none => .error (.valueError "invalid literal for int"))
  | _ => .error (.typeError "int argument must be a string or a number")

/-- Codepoint-lexicographic comparison of char lists (Python `str` order). -/
def charListLe : List Char → List Char → Bool
  | [], _ => true
  | _ :: _, [] => false
  | a :: as, b :: bs =>
    if a < b then true else if b < a then false else charListLe as bs

/-- Comparison used by Python `sorted` on the sort keys the adapter produces:
strings compare lexicographically, ints numerically.  Python raises
`TypeError` on any other combination (e.g. `None` versus `str`); those
combinations never decide the analysed claims and get an arbitrary total
default here. -/
def valueLe : Value → Value → Bool
  | .vStr a, .vStr b => charListLe a.data b.data
  | .vInt a, .vInt b => decide (a ≤ b)
  | _, _ => true

/-- Stable insertion of `a` into an ascending list: `a` is placed before the
first element not strictly below it, so elements equal to `a` that were
later in the original list stay after it. -/
def insort (le : α → α → Bool) (a : α) : List α → List α
  | [] => [a]
  | b :: bs => if le b a && !(le a b) then b :: insort le a bs else a :: b :: bs

/-- Python `sorted`: a stable ascending sort (insertion sort, which agrees
with any stable sort). -/
def pySorted (le : α → α → Bool) : List α → List α
  | [] => []
  | x :: xs => insort le x (pySorted le xs)

/-- The sort order `sorted(..., key=lambda d: d.get('value'))` uses on email
entries. -/
def emailLe (e1 e2 : Value) : Bool := valueLe (e1.get "value") (e2.get "value")

/-- Embeds `SCIMMixin.split_path`: convert a path to a 3-tuple if possible.
`AttrPaths` of the external library scim2-filter-parser is abstracted as
`oracle`, the function giving the list of attribute-path fragments the
library extracts from a complete filter query for the resource's
`ATTR_MAP`.  The code tacks `' eq ""'` onto the path to obtain a complete
query.  On a missing path (`None`), the concatenation itself raises
`TypeError`.  When no fragment is found the code evaluates
`scim_exceptions.BadRequestError`, but the module only imports
`exceptions`, so that line raises `NameError` instead of the intended
`BadRequestError('No attribute path found in request')`. -/
def SCIMMixin.split_path (oracle : String → List AttrPath) (path : Value) :
    Except Err PathResult :=
  match path with
  | .vStr p =>
    let filter_ := p ++ " eq \x22\x22"
    match oracle filter_ with
    | [] => .error (.nameError "name scim_exceptions is not defined")
    | [ap] => .ok (.simple ap)
    | ap1 :: ap2 :: rest => .ok (.complex p (ap1 :: ap2 :: rest))
  | .vNone => .error (.typeError "unsupported operand types for + NoneType and str")
  | _ => .error (.typeError "can only concatenate str")

/-- The loop of `parse_path_and_value` over a path-less dict value:
`new_value[self.split_path(k)] = v` for each item, failing on the first
key whose resolution raises. -/
def SCIMMixin.convert_dict_keys (oracle : String → List AttrPath) :
    List (String × Value) → Except Err (List (PathResult × Value))
  | [] => .ok []
  | (k, v) :: rest =>
    match SCIMMixin.split_path oracle (.vStr k) with
    | .error e => .error e
    | .ok p =>
      match SCIMMixin.convert_dict_keys oracle rest with
      | .error e => .error e
      | .ok tail => .ok ((p, v) :: tail)

/-- Embeds `SCIMMixin.parse_path_and_value`: if there is no (truthy) path and the
value is a dict, each key of the dict is resolved as its own attribute
path and the path stays absent; otherwise the path itself is resolved and
the value passes through unchanged. -/
def SCIMMixin.parse_path_and_value (oracle : String → List AttrPath)
    (path value : Value) : Except Err (Option PathResult × NormValue) :=
  match value with
  | .vDict kvs =>
    if truthy path then
      match SCIMMixin.split_path oracle path with
      | .error e => .error e
      | .ok p => .ok (some p, .raw value)
    else
      match SCIMMixin.convert_dict_keys oracle kvs with
      | .error e => .error e
      | .ok entries => .ok (none, .pathMap entries)
  | _ =>
    match SCIMMixin.split_path oracle path with
    | .error e => .error e
    | .ok p => .ok (some p, .raw value)

/-- Modelled from the spec: `constants.VALID_PATCH_OPS`, the fixed op-code
vocabulary (the `constants` module is not part of the analysed source). -/
def VALID_PATCH_OPS : List String := ["add", "remove", "replace"]

/-- The per-resource `handle_add` / `handle_remove` / `handle_replace`
capabilities that `handle_operations` dispatches to (the source looks the
method up as `getattr(self, 'handle_' + op_code)`). -/
structure Handlers (S : Type) where
  handle_add : Option PathResult → NormValue → S → Except Err S
  handle_remove : Option PathResult → NormValue → S → Except Err S
  handle_replace : Option PathResult → NormValue → S → Except Err S

/-- The `SCIMMixin` default for all three handlers: raise
`exceptions.NotImplementedError`. -/
def SCIMMixin.default_handler :
    Option PathResult → NormValue → S → Except Err S :=
  fun _ _ _ => .error (.notImplemented none)

/-- The body of the `handle_operations` loop for one operation:
normalize path and value, then lower-case and validate the op code,
reject a path-less `remove`, and dispatch to `handle_<op code>`. -/
def SCIMMixin.apply_operation (oracle : String → List AttrPath)
    (h : Handlers S) (operation : Operation) (st : S) : Except Err S :=
  match SCIMMixin.parse_path_and_value oracle operation.path operation.value with
  | .error e => .error e
  | .ok (path, value) =>
    match pyLower operation.op with
    | .error e => .error e
    | .ok op_code =>
      if op_code ∈ VALID_PATCH_OPS then
        if op_code = "remove" ∧ path = none then
          .error (.badRequest
            "\x22path\x22 must be specified during \x22remove\x22 PATCH calls"
            (some "noTarget"))
        else if op_code = "add" then h.handle_add path value st
        else if op_code = "remove" then h.handle_remove path value st
        else h.handle_replace path value st
      else
        .error (.badRequest ("Unknown PATCH op \x22" ++ op_code ++ "\x22") none)

/-- Embeds `SCIMMixin.handle_operations`: apply the operations in submission order,
propagating the first failure. -/
def SCIMMixin.handle_operations (oracle : String → List AttrPath)
    (h : Handlers S) : List Operation → S → Except Err S
  | [], st => .ok st
  | operation :: rest, st =>
    match SCIMMixin.apply_operation oracle h operation st with
    | .error e => .error e
    | .ok st2 => SCIMMixin.handle_operations oracle h rest st2

/-- The in-memory Django user object as far as the adapter touches it:
the fields `SCIMUser.ATTR_MAP` maps to, plus `email`.  `setattr` stores the
raw submitted value, so all fields hold `Value`s. -/
structure UserObj where
  username : Value
  first_name : Value
  last_name : Value
  is_active : Value
  email : Value

/-- Embeds `SCIMUser.ATTR_MAP`: the User attribute map, `(attr, sub_attr, uri)`
3-tuples to Django field names. -/
def SCIMUser.ATTR_MAP : List (AttrPath × String) :=
  [(("userName", none, none), "username"),
   (("name", some "familyName", none), "last_name"),
   (("familyName", none, none), "last_name"),
   (("name", some "givenName", none), "first_name"),
   (("givenName", none, none), "first_name"),
   (("active", none, none), "is_active")]

/-- Models `self.ATTR_MAP.get(path)` where `path` is a dict key of the
`handle_replace` loop: only a 3-tuple key can match (a plain string or a
`ComplexAttrPath` object never equals a tuple in Python). -/
def SCIMUser.attr_map_get (k : HKey) : Option String :=
  match k with
  | .simple p => (SCIMUser.ATTR_MAP.find? (fun kv => decide (kv.1 = p))).map (·.2)
  | _ => none

/-- Models `setattr(self.obj, field, value)` for the field names occurring in
`SCIMUser.ATTR_MAP`. -/
def setattrUser (u : UserObj) (field : String) (v : Value) : UserObj :=
  if field = "username" then { u with username := v }
  else if field = "last_name" then { u with last_name := v }
  else if field = "first_name" then { u with first_name := v }
  else if field = "is_active" then { u with is_active := v }
  else u

/-- The email the code computes from a list value: partition by truthiness of
`e.get('primary')` into two `sorted(..., key=lambda d: d.get('value'))`
lists, concatenate primary-first, and take `emails[0].get('value')`;
the concatenation of the two filters of a non-empty list is never empty,
but the code checks and raises `BadRequestError('Invalid email value')` on
an empty concatenation. -/
def SCIMUser.email_of_value : Value → Except Err Value
  | .vList xs =>
    let primary_emails := pySorted emailLe (xs.filter (fun e => truthy (e.get "primary")))
    let secondary_emails := pySorted emailLe (xs.filter (fun e => !truthy (e.get "primary")))
    (match primary_emails ++ secondary_emails with
     | [] => .error (.badRequest "Invalid email value" none)
     | e :: _ => .ok (e.get "value"))
  | .vDict kvs =>
    -- OneLogin non-conformant form: `(value.get('value') or '').strip()`;
    -- `.strip()` on a non-string would raise AttributeError.
    let v := (Value.vDict kvs).get "value"
    let v := if truthy v then v else .vStr ""
    (match v with
     | .vStr s => .ok (.vStr (pyStrip s))
     | _ => .error (.attributeError "object has no attribute strip"))
  | _ => .ok .vNone    -- email stays None; validation decides what happens

/-- Embeds `SCIMUser.parse_emails`: a falsy value (`None`, empty list, empty dict)
is a silent no-op; otherwise compute the single email to store, run it
through `validate_email` (Django's `EmailValidator`, an external
collaborator abstracted as the predicate `validate`; on failure the code
raises `BadRequestError('Invalid email value')`), and assign it to
`self.obj.email`. -/
def SCIMUser.parse_emails (validate : Value → Bool) (u : UserObj)
    (value : Value) : Except Err UserObj :=
  if truthy value then
    match SCIMUser.email_of_value value with
    | .error e => .error e
    | .ok email =>
      if validate email then .ok { u with email := email }
      else .error (.badRequest "Invalid email value" none)
  else .ok u

/-- One iteration of the `handle_replace` loop over `(path, value)` items:
an `ATTR_MAP` path is assigned with `setattr`, the canonical `emails` path
delegates to `parse_emails`, anything else raises
`NotImplementedError('Not Implemented')`. -/
def SCIMUser.replace_step (validate : Value → Bool) (u : UserObj)
    (entry : HKey × Value) : Except Err UserObj :=
  match SCIMUser.attr_map_get entry.1 with
  | some field => .ok (setattrUser u field entry.2)
  | none =>
    if entry.1 = HKey.simple ("emails", none, none) then
      SCIMUser.parse_emails validate u entry.2
    else .error (.notImplemented (some "Not Implemented"))

/-- The `handle_replace` loop over all items of the (possibly restructured)
value dict. -/
def SCIMUser.replace_loop (validate : Value → Bool) :
    UserObj → List (HKey × Value) → Except Err UserObj
  | u, [] => .ok u
  | u, entry :: rest =>
    match SCIMUser.replace_step validate u entry with
    | .error e => .error e
    | .ok u2 => SCIMUser.replace_loop validate u2 rest

/-- The items of the dict `handle_replace` iterates, if the value is a dict
at all: a raw dict contributes its string keys, a path-keyed dict its
resolved paths. -/
def dictEntries : NormValue → Option (List (HKey × Value))
  | .raw (.vDict kvs) => some (kvs.map (fun kv => (HKey.str kv.1, kv.2)))
  | .pathMap entries => some (entries.map (fun kv => (HKey.ofPath kv.1, kv.2)))
  | _ => none

/-- Embeds `SCIMUser.handle_replace`: a single resolved path paired with a string
value is restructured into a one-entry dict `{path: value}`; a non-dict
value after that restructuring raises `NotImplementedError`; otherwise the
loop processes every item and finally `self.obj.save()` persists the
object (persistence is external, the in-memory object is returned). -/
def SCIMUser.handle_replace (validate : Value → Bool)
    (path : Option PathResult) (value : NormValue) (u : UserObj) :
    Except Err UserObj :=
  let value :=
    match path, value with
    | some p, .raw (.vStr s) => NormValue.pathMap [(p, .vStr s)]
    | _, _ => value
  match dictEntries value with
  | none => .error (.notImplemented
      (some "PATCH replace operation with value type of \x7btype(value)\x7d is not implemented"))
  | some entries => SCIMUser.replace_loop validate u entries

/-- The User capability set: `add` and `remove` keep the `SCIMMixin`
defaults (`NotImplementedError`), only `replace` is implemented. -/
def userHandlers (validate : Value → Bool) : Handlers UserObj :=
  { handle_add := SCIMMixin.default_handler
    handle_remove := SCIMMixin.default_handler
    handle_replace := SCIMUser.handle_replace validate }

/-- The in-memory Django group object as far as the analysed handlers touch
it: its member set `user_set`, a set of user ids (`user_set.add` is an
idempotent set insertion). -/
structure GroupObj where
  user_set : Finset Int
deriving DecidableEq

/-- The id-extraction loop of `SCIMGroup.handle_add` / `handle_remove`:
`ids = [int(member.get('value')) for member in members]`. -/
def SCIMGroup.extract_ids : List Value → Except Err (List Int)
  | [] => .ok []
  | member :: rest =>
    match pyInt (member.get "value") with
    | .error e => .error e
    | .ok i =>
      match SCIMGroup.extract_ids rest with
      | .error e => .error e
      | .ok tail => .ok (i :: tail)

/-- Models `members = value or []` followed by iterating `members`: a falsy value
becomes the empty list; a truthy non-list cannot be iterated into member
dicts (Python would fail on `member.get`), modelled as `TypeError`.
A path-keyed dict only reaches the handler with an absent path, which the
`members` branch never sees. -/
def memberList : NormValue → Except Err (List Value)
  | .raw v =>
    if truthy v then
      match v with
      | .vList xs => .ok xs
      | _ => .error (.typeError "value is not a list of member dicts")
    else .ok []
  | .pathMap entries =>
    if entries.isEmpty then .ok []
    else .error (.typeError "value is not a list of member dicts")

/-- Embeds `SCIMGroup.handle_add`: on path `('members', None, None)` extract the
integer user ids, match them against the existing users (`db` models the
user table; `objects.filter(id__in=ids)` returns each matching user once);
if the count of distinct matched users differs from `len(ids)` raise
`BadRequestError('Can not add a non-existent user to group')` before any
mutation, otherwise add every matched user to the member set (the loop of
`user_set.add` calls is the set union).  Any other path raises
`NotImplementedError`. -/
def SCIMGroup.handle_add (db : Finset Int) (path : Option PathResult)
    (value : NormValue) (g : GroupObj) : Except Err GroupObj :=
  if path = some (.simple ("members", none, none)) then
    match memberList value with
    | .error e => .error e
    | .ok members =>
      match SCIMGroup.extract_ids members with
      | .error e => .error e
      | .ok ids =>
        let users := db.filter (fun i => i ∈ ids)
        if ids.length ≠ users.card then
          .error (.badRequest "Can not add a non-existent user to group" none)
        else
          .ok { g with user_set := g.user_set ∪ users }
  else .error (.notImplemented none)

/-- The email-selection rule in the spec's words: partition the entries into
primary and non-primary, stable-sort each partition ascending by `value`,
concatenate primary-first, and select the first entry's `value`. -/
def specSelectedEmail (xs : List Value) : Value :=
  let parts := xs.partition (fun e => truthy (e.get "primary"))
  match pySorted emailLe parts.1 ++ pySorted emailLe parts.2 with
  | [] => .vNone
  | e :: _ => e.get "value"

instance {ε α : Type} [DecidableEq ε] [DecidableEq α] :
    DecidableEq (Except ε α) := fun a b =>
  match a, b with
  | .ok x, .ok y =>
    match decEq x y with
    | isTrue h => isTrue (by rw [h])
    | isFalse h => isFalse (fun he => h (by injection he))
  | .error x, .error y =>
    match decEq x y with
    | isTrue h => isTrue (by rw [h])
    | isFalse h => isFalse (fun he => h (by injection he))
  | .ok _, .error _ => isFalse (fun he => Except.noConfusion he)
  | .error _, .ok _ => isFalse (fun he => Except.noConfusion he)

/-- A concrete `AttrPaths` behavior for the User resource, covering the
simple single-fragment paths exercised by the witnesses; any other query
yields no fragment. -/
def oracle0 : String → List AttrPath := fun s =>
  if s = "userName eq \x22\x22" then [("userName", none, none)]
  else if s = "givenName eq \x22\x22" then [("givenName", none, none)]
  else if s = "active eq \x22\x22" then [("active", none, none)]
  else if s = "emails eq \x22\x22" then [("emails", none, none)]
  else []

/-- A concrete stand-in for Django's `EmailValidator`: accepts strings
containing `@`. -/
def validate0 : Value → Bool := fun v =>
  match v with
  | .vStr s => s.data.contains '@'
  | _ => false

/-- A concrete user object for witnesses. -/
def u0 : UserObj :=
  ⟨.vStr "u", .vStr "", .vStr "", .vBool true, .vStr "old@x.com"⟩

/-- The resolved path of a dict key whose resolution succeeds (used to state
the normalization equivalence; the error fallback is never reached under
the single-fragment hypothesis). -/
def pathOfKey (oracle : String → List AttrPath) (k : String) : PathResult :=
  match SCIMMixin.split_path oracle (.vStr k) with
  | .ok p => p
  | .error _ => .simple ("", none, none)

/-- The `handle_replace`-loop entry of a resolved key-value pair. -/
def hkeyEntry (oracle : String → List AttrPath) (kv : String × Value) :
    HKey × Value :=
  (HKey.ofPath (pathOfKey oracle kv.1), kv.2)

/-- The email list of the spec's selection example. -/
def emailsExample : List Value :=
  [.vDict [("value", .vStr "b@x.com"), ("primary", .vBool false)],
   .vDict [("value", .vStr "a@x.com"), ("primary", .vBool true)],
   .vDict [("value", .vStr "z@x.com"), ("primary", .vBool true)]]

example : truthy (.vList []) = false := by decide
example : pyStrLower "Replace" = "replace" := by decide
example : pyInt (.vStr "999") = .ok 999 := rfl
example : pyStrip " a@x.com " = "a@x.com" := by decide
example :
    SCIMGroup.handle_add {1} (some (.simple ("members", none, none)))
      (.raw (.vList [.vDict [("value", .vStr "1")], .vDict [("value", .vStr "1")]]))
      ⟨∅⟩
    = .error (.badRequest "Can not add a non-existent user to group" none) := by
  rfl
example :
    SCIMUser.parse_emails (fun _ => false) ⟨.vNone, .vNone, .vNone, .vNone, .vNone⟩
      (.vList []) = .ok ⟨.vNone, .vNone, .vNone, .vNone, .vNone⟩ := rfl
-- C5: the selection example stores a@x.com
example :
    SCIMUser.parse_emails validate0 u0 (.vList emailsExample)
      = .ok { u0 with email := .vStr "a@x.com" } := rfl
-- C8/C10: frobnicate with no path dies in normalization with TypeError
example :
    SCIMMixin.handle_operations oracle0 (userHandlers validate0)
      [⟨.vStr "frobnicate", .vNone, .vNone⟩] u0
    = .error (.typeError "unsupported operand types for + NoneType and str") := rfl
-- C8: frobnicate with a resolvable path gives the Unknown PATCH op error
example :
    SCIMMixin.handle_operations oracle0 (userHandlers validate0)
      [⟨.vStr "frobnicate", .vStr "userName", .vStr "x"⟩] u0
    = .error (.badRequest "Unknown PATCH op \x22frobnicate\x22" none) := rfl
-- C9: path-less remove with dict value gives noTarget
example :
    SCIMMixin.handle_operations oracle0 (userHandlers validate0)
      [⟨.vStr "remove", .vNone, .vDict [("userName", .vStr "bob")]⟩] u0
    = .error (.badRequest
        "\x22path\x22 must be specified during \x22remove\x22 PATCH calls"
        (some "noTarget")) := rfl
-- C6: batched bool sub-value applies...
example :
    SCIMMixin.handle_operations oracle0 (userHandlers validate0)
      [⟨.vStr "replace", .vNone, .vDict [("active", .vBool true)]⟩] u0
    = .ok { u0 with is_active := .vBool true } := rfl
-- ...but the per-key form fails NotImplemented
example :
    SCIMMixin.handle_operations oracle0 (userHandlers validate0)
      [⟨.vStr "replace", .vStr "active", .vBool true⟩] u0
    = .error (.notImplemented
        (some "PATCH replace operation with value type of \x7btype(value)\x7d is not implemented")) := rfl
-- C7: double add is idempotent
example :
    SCIMGroup.handle_add {1, 2} (some (.simple ("members", none, none)))
      (.raw (.vList [.vDict [("value", .vStr "1")], .vDict [("value", .vStr "2")]]))
      ⟨∅⟩
    = .ok ⟨{1, 2}⟩ := by decide
-- C8: Replace dispatches like replace
example :
    SCIMMixin.handle_operations oracle0 (userHandlers validate0)
      [⟨.vStr "Replace", .vStr "userName", .vStr "bob"⟩] u0
    = .ok { u0 with username := .vStr "bob" } := rfl

/-! ## General lemmas -/

/-- Evaluating `value or []` on a raw list value always yields the list itself (an empty
list is falsy, and `[] or []` is `[]`). -/
theorem memberList_raw_list (ms : List Value) :
    memberList (.raw (.vList ms)) = .ok ms := by
  cases ms <;> simp [memberList, truthy]

/-- Stable insertion grows the length by one. -/
theorem insort_length (le : α → α → Bool) (a : α) (l : List α) :
    (insort le a l).length = l.length + 1 := by
  induction l with
  | nil => rfl
  | cons b bs ih =>
    simp only [insort]
    split
    · simp [ih]
    · simp

/-- Sorting with `pySorted` preserves length. -/
theorem pySorted_length (le : α → α → Bool) (l : List α) :
    (pySorted le l).length = l.length := by
  induction l with
  | nil => rfl
  | cons x xs ih => simp [pySorted, insort_length, ih]

/-- The two complementary filters of a list cover it. -/
theorem length_filter_add_length_filter_not (p : α → Bool) (l : List α) :
    (l.filter p).length + (l.filter (fun a => !p a)).length = l.length := by
  induction l with
  | nil => rfl
  | cons a l ih => cases h : p a <;> simp [List.filter_cons, h] <;> omega

/-- On a non-empty list value, the email the code computes is exactly the
spec's selection (partition, stable-sort each side ascending by value,
primary-first, first entry's value); the empty-concatenation error branch
is unreachable. -/
theorem email_of_value_list (xs : List Value) (h : xs ≠ []) :
    SCIMUser.email_of_value (.vList xs) = .ok (specSelectedEmail xs) := by
  unfold SCIMUser.email_of_value specSelectedEmail
  simp only [List.partition_eq_filter_filter, Function.comp_def]
  cases hm : pySorted emailLe (xs.filter (fun e => truthy (e.get "primary")))
      ++ pySorted emailLe (xs.filter (fun e => !truthy (e.get "primary"))) with
  | nil =>
    exfalso
    have hl := congrArg List.length hm
    rw [List.length_append, pySorted_length, pySorted_length,
      length_filter_add_length_filter_not] at hl
    exact h (List.length_eq_zero.mp hl)
  | cons e rest => simp

/-! ## Email selection claims -/

/-- C5: for a non-empty email entry list whose selected address passes
validation, `parse_emails` stores exactly the spec's selection — the
`value` of the first entry after partitioning into primary/non-primary,
stable-sorting each partition ascending by `value` and concatenating
primary-first; and on the spec's example list the selection is
`a@x.com`. -/
theorem C5_email_selection (validate : Value → Bool) (u : UserObj)
    (xs : List Value) (hne : xs ≠ [])
    (hv : validate (specSelectedEmail xs) = true) :
    SCIMUser.parse_emails validate u (.vList xs)
      = .ok { u with email := specSelectedEmail xs }
    ∧ specSelectedEmail emailsExample = .vStr "a@x.com" := by
  constructor
  · have ht : truthy (.vList xs) = true := by
      cases xs with
      | nil => exact absurd rfl hne
      | cons a l => rfl
    unfold SCIMUser.parse_emails
    rw [ht, email_of_value_list xs hne]
    simp [hv]
  · rfl

/-- C5 witness: the example list, under a validator accepting `a@x.com`,
stores `a@x.com`. -/
theorem C5_email_selection_witness :
    SCIMUser.parse_emails validate0 u0 (.vList emailsExample)
      = .ok { u0 with email := specSelectedEmail emailsExample }
    ∧ specSelectedEmail emailsExample = .vStr "a@x.com" :=
  C5_email_selection validate0 u0 emailsExample
    (by simp [emailsExample]) rfl

/-- C1 counterexample: contrary to the claim, `parse_emails` applied to an
empty list does NOT fail with `BadRequest('Invalid email value')` — the
`if value:` guard makes it a silent no-op that leaves the stored email
unchanged. -/
theorem C1_counterexample :
    SCIMUser.parse_emails validate0 u0 (.vList [])
      ≠ .error (.badRequest "Invalid email value" none)
    ∧ SCIMUser.parse_emails validate0 u0 (.vList []) = .ok u0 := by
  refine ⟨fun h => ?_, rfl⟩
  have e : SCIMUser.parse_emails validate0 u0 (.vList []) = .ok u0 := rfl
  rw [e] at h
  exact Except.noConfusion h

/-- C1 (amended): an empty list is a silent no-op of `parse_emails` (no
error, stored email unchanged; the empty-after-partitioning BadRequest
branch is unreachable for list inputs), while for every non-empty list the
call never silently does nothing: it either fails `BadRequest('Invalid
email value')` (validation) or stores the selected email. -/
theorem C1_empty_email_list_noop (validate : Value → Bool) (u : UserObj)
    (xs : List Value) (hne : xs ≠ []) :
    SCIMUser.parse_emails validate u (.vList []) = .ok u
    ∧ (SCIMUser.parse_emails validate u (.vList xs)
        = .error (.badRequest "Invalid email value" none)
      ∨ SCIMUser.parse_emails validate u (.vList xs)
        = .ok { u with email := specSelectedEmail xs }) := by
  refine ⟨rfl, ?_⟩
  have ht : truthy (.vList xs) = true := by
    cases xs with
    | nil => exact absurd rfl hne
    | cons a l => rfl
  unfold SCIMUser.parse_emails
  rw [ht, email_of_value_list xs hne]
  cases hv : validate (specSelectedEmail xs) with
  | true => right; simp [hv]
  | false => left; simp [hv]

/-- C1 witness: a singleton list whose value fails the validator hits the
BadRequest branch (no silent skip), while the empty list is a no-op. -/
theorem C1_empty_email_list_noop_witness :
    SCIMUser.parse_emails validate0 u0 (.vList []) = .ok u0
    ∧ (SCIMUser.parse_emails validate0 u0 (.vList [.vDict [("value", .vStr "nope")]])
        = .error (.badRequest "Invalid email value" none)
      ∨ SCIMUser.parse_emails validate0 u0 (.vList [.vDict [("value", .vStr "nope")]])
        = .ok { u0 with email := specSelectedEmail [.vDict [("value", .vStr "nope")]] }) :=
  C1_empty_email_list_noop validate0 u0 [.vDict [("value", .vStr "nope")]]
    (List.cons_ne_nil _ _)

/-! ## Path resolver claim -/

/-- C3: when the attribute-path parse of a path string yields zero
fragments, `split_path` does not raise the intended typed
`BadRequestError('No attribute path found in request')`: the module
imports `exceptions` but that line evaluates `scim_exceptions`, an
undefined name, so Python raises an untyped `NameError` instead. -/
theorem C3_zero_fragments_nameerror (oracle : String → List AttrPath)
    (p : String) (h : oracle (p ++ " eq \x22\x22") = []) :
    SCIMMixin.split_path oracle (.vStr p)
      = .error (.nameError "name scim_exceptions is not defined") := by
  have e : SCIMMixin.split_path oracle (.vStr p)
      = (match oracle (p ++ " eq \x22\x22") with
         | [] => Except.error (Err.nameError "name scim_exceptions is not defined")
         | [ap] => Except.ok (PathResult.simple ap)
         | ap1 :: ap2 :: rest =>
           Except.ok (PathResult.complex p (ap1 :: ap2 :: rest))) := rfl
  rw [e, h]

/-- C3 witness: a path with no resolvable fragment under `oracle0`. -/
theorem C3_zero_fragments_nameerror_witness :
    SCIMMixin.split_path oracle0 (.vStr "x")
      = .error (.nameError "name scim_exceptions is not defined") :=
  C3_zero_fragments_nameerror oracle0 "x" (by decide)

/-! ## Group membership claims -/

/-- C4: a Group add-members operation whose member list resolves to at least
one user id absent from the user table fails with
`BadRequest('Can not add a non-existent user to group')`; the error is
raised by the count check before any `user_set.add`, so the membership set
is untouched (the returned computation carries no new group state). -/
theorem C4_group_add_nonexistent (db : Finset Int) (g : GroupObj)
    (ms : List Value) (ids : List Int) (i : Int)
    (hids : SCIMGroup.extract_ids ms = .ok ids)
    (hmem : i ∈ ids) (hnotdb : i ∉ db) :
    SCIMGroup.handle_add db (some (.simple ("members", none, none)))
      (.raw (.vList ms)) g
    = .error (.badRequest "Can not add a non-existent user to group" none) := by
  have hne : ids.length ≠ (db.filter (fun x => x ∈ ids)).card := by
    have hsub : db.filter (fun x => x ∈ ids) ⊆ ids.toFinset.erase i := by
      intro x hx
      rcases Finset.mem_filter.mp hx with ⟨hxdb, hxids⟩
      exact Finset.mem_erase.mpr
        ⟨fun hxi => hnotdb (hxi ▸ hxdb), List.mem_toFinset.mpr hxids⟩
    have h1 := Finset.card_le_card hsub
    have h2 := Finset.card_erase_lt_of_mem (List.mem_toFinset.mpr hmem)
    have h3 := List.toFinset_card_le (l := ids)
    omega
  simp [SCIMGroup.handle_add, memberList_raw_list, hids, hne]

/-- C4 witness: adding member reference `{value: "999"}` to a group when only
user 1 exists fails with the BadRequest error. -/
theorem C4_group_add_nonexistent_witness :
    SCIMGroup.handle_add {1} (some (.simple ("members", none, none)))
      (.raw (.vList [.vDict [("value", .vStr "999")]])) ⟨∅⟩
    = .error (.badRequest "Can not add a non-existent user to group" none) :=
  C4_group_add_nonexistent {1} ⟨∅⟩ _ [999] 999 rfl (by decide) (by decide)

/-- C7: a Group add-members operation whose id list is duplicate-free and
resolves entirely to existing users succeeds, and applying it a second
time to the resulting group state returns the same state: membership
addition is an idempotent set union. -/
theorem C7_group_add_idempotent (db : Finset Int) (g : GroupObj)
    (ms : List Value) (ids : List Int)
    (hids : SCIMGroup.extract_ids ms = .ok ids)
    (hnd : ids.Nodup) (hall : ∀ i ∈ ids, i ∈ db) :
    (SCIMGroup.handle_add db (some (.simple ("members", none, none)))
        (.raw (.vList ms)) g).bind
      (SCIMGroup.handle_add db (some (.simple ("members", none, none)))
        (.raw (.vList ms)))
    = SCIMGroup.handle_add db (some (.simple ("members", none, none)))
        (.raw (.vList ms)) g := by
  have husers : db.filter (fun x => x ∈ ids) = ids.toFinset := by
    apply Finset.ext
    intro x
    simp only [Finset.mem_filter, List.mem_toFinset]
    exact ⟨fun h => h.2, fun h => ⟨hall x h, h⟩⟩
  have hcard : ids.toFinset.card = ids.length := List.toFinset_card_of_nodup hnd
  have key : ∀ g2 : GroupObj,
      SCIMGroup.handle_add db (some (.simple ("members", none, none)))
        (.raw (.vList ms)) g2
      = .ok ⟨g2.user_set ∪ ids.toFinset⟩ := by
    intro g2
    simp [SCIMGroup.handle_add, memberList_raw_list, hids, husers, hcard]
  rw [key g]
  show SCIMGroup.handle_add db (some (.simple ("members", none, none)))
      (.raw (.vList ms)) ⟨g.user_set ∪ ids.toFinset⟩
    = .ok ⟨g.user_set ∪ ids.toFinset⟩
  rw [key ⟨g.user_set ∪ ids.toFinset⟩]
  simp [Finset.union_assoc]

/-- C7 witness: adding `[{value:"1"},{value:"2"}]` twice to an empty group
with existing users 1 and 2 equals adding it once. -/
theorem C7_group_add_idempotent_witness :
    (SCIMGroup.handle_add {1, 2} (some (.simple ("members", none, none)))
        (.raw (.vList [.vDict [("value", .vStr "1")],
                       .vDict [("value", .vStr "2")]])) ⟨∅⟩).bind
      (SCIMGroup.handle_add {1, 2} (some (.simple ("members", none, none)))
        (.raw (.vList [.vDict [("value", .vStr "1")],
                       .vDict [("value", .vStr "2")]])))
    = SCIMGroup.handle_add {1, 2} (some (.simple ("members", none, none)))
        (.raw (.vList [.vDict [("value", .vStr "1")],
                       .vDict [("value", .vStr "2")]])) ⟨∅⟩ :=
  C7_group_add_idempotent {1, 2} ⟨∅⟩ _ [1, 2] rfl (by decide) (by decide)

/-- C2: the claim says a Group add with duplicate references to one existing
user succeeds like the deduplicated add.  The code instead compares
`len(ids)` (with duplicates) against the count of distinct matched users,
so `[{value:"1"},{value:"1"}]` with user 1 existing raises
`BadRequest('Can not add a non-existent user to group')` — an error whose
message contradicts the situation (user 1 exists) — while the
deduplicated list `[{value:"1"}]` succeeds and adds the member. -/
theorem C2_duplicate_member_add_behavior :
    SCIMGroup.handle_add {1} (some (.simple ("members", none, none)))
      (.raw (.vList [.vDict [("value", .vStr "1")],
                     .vDict [("value", .vStr "1")]])) ⟨∅⟩
    = .error (.badRequest "Can not add a non-existent user to group" none)
    ∧ SCIMGroup.handle_add {1} (some (.simple ("members", none, none)))
      (.raw (.vList [.vDict [("value", .vStr "1")]])) ⟨∅⟩
    = .ok ⟨{1}⟩ := by
  exact ⟨rfl, by decide⟩

/-! ## Dispatcher claims -/

/-- C9: an operation whose op code lower-cases to `remove` and whose
normalization produced an absent path fails with `BadRequest` of scim
type `noTarget` before any handler runs, leaving the resource unchanged
(the dispatcher raises instead of producing a new state). -/
theorem C9_remove_without_path_noTarget {S : Type}
    (oracle : String → List AttrPath) (h : Handlers S)
    (operation : Operation) (st : S) (c : String) (nv : NormValue)
    (hop : operation.op = .vStr c) (hlc : pyStrLower c = "remove")
    (hp : SCIMMixin.parse_path_and_value oracle operation.path operation.value
          = .ok (none, nv)) :
    SCIMMixin.handle_operations oracle h [operation] st
      = .error (.badRequest
          "\x22path\x22 must be specified during \x22remove\x22 PATCH calls"
          (some "noTarget")) := by
  simp [SCIMMixin.handle_operations, SCIMMixin.apply_operation, hp, hop,
    pyLower, hlc, VALID_PATCH_OPS]

/-- C9 witness: `{op:"remove", value:{...}}` without a path under a concrete
resolver fails `noTarget`. -/
theorem C9_remove_without_path_noTarget_witness :
    SCIMMixin.handle_operations oracle0 (userHandlers validate0)
      [⟨.vStr "remove", .vNone, .vDict [("userName", .vStr "bob")]⟩] u0
      = .error (.badRequest
          "\x22path\x22 must be specified during \x22remove\x22 PATCH calls"
          (some "noTarget")) :=
  C9_remove_without_path_noTarget oracle0 (userHandlers validate0)
    ⟨.vStr "remove", .vNone, .vDict [("userName", .vStr "bob")]⟩ u0
    "remove" (.pathMap [(.simple ("userName", none, none), .vStr "bob")])
    rfl rfl rfl

/-- C10: for an operation with absent path and non-mapping value, path
normalization runs first and dies concatenating `None` with `' eq ""'`
(an untyped `TypeError`), so neither the `Unknown PATCH op` BadRequest
nor the `noTarget` BadRequest is reachable for such operations, whatever
the op code. -/
theorem C10_normalization_precedes_op_checks {S : Type}
    (oracle : String → List AttrPath) (h : Handlers S)
    (opv v : Value) (st : S) (hv : v.isDict = false) :
    SCIMMixin.handle_operations oracle h [⟨opv, .vNone, v⟩] st
      = .error (.typeError "unsupported operand types for + NoneType and str")
    ∧ ∀ m t, SCIMMixin.handle_operations oracle h [⟨opv, .vNone, v⟩] st
        ≠ .error (.badRequest m t) := by
  have e1 : SCIMMixin.handle_operations oracle h [⟨opv, .vNone, v⟩] st
      = .error (.typeError "unsupported operand types for + NoneType and str") := by
    cases v with
    | vDict kvs => simp [Value.isDict] at hv
    | vNone => rfl
    | vStr s => rfl
    | vBool b => rfl
    | vInt n => rfl
    | vList xs => rfl
  refine ⟨e1, fun m t hc => ?_⟩
  rw [e1] at hc
  exact Err.noConfusion (Except.error.inj hc)

/-- C10 witness: `{op:"frobnicate", value:"x"}` with no path fails with the
TypeError from normalization, not with the op-code BadRequest. -/
theorem C10_normalization_precedes_op_checks_witness :
    SCIMMixin.handle_operations oracle0 (userHandlers validate0)
      [⟨.vStr "frobnicate", .vNone, .vStr "x"⟩] u0
      = .error (.typeError "unsupported operand types for + NoneType and str")
    ∧ SCIMMixin.handle_operations oracle0 (userHandlers validate0)
      [⟨.vStr "frobnicate", .vNone, .vStr "x"⟩] u0
      ≠ .error (.badRequest "Unknown PATCH op \x22frobnicate\x22" none) :=
  ⟨(C10_normalization_precedes_op_checks oracle0 (userHandlers validate0)
      (.vStr "frobnicate") (.vStr "x") u0 rfl).1,
   (C10_normalization_precedes_op_checks oracle0 (userHandlers validate0)
      (.vStr "frobnicate") (.vStr "x") u0 rfl).2
     "Unknown PATCH op \x22frobnicate\x22" none⟩

/-- C8 counterexample: the claim quantifies over every PATCH operation, but
the spec example `{op:"frobnicate"}` itself (no path, no value) fails in
normalization with an untyped `TypeError` before the op code is ever
examined — not with `BadRequest('Unknown PATCH op')` as claimed. -/
theorem C8_counterexample :
    SCIMMixin.handle_operations oracle0 (userHandlers validate0)
      [⟨.vStr "frobnicate", .vNone, .vNone⟩] u0
      = .error (.typeError "unsupported operand types for + NoneType and str")
    ∧ SCIMMixin.handle_operations oracle0 (userHandlers validate0)
      [⟨.vStr "frobnicate", .vNone, .vNone⟩] u0
      ≠ .error (.badRequest "Unknown PATCH op \x22frobnicate\x22" none) := by
  refine ⟨rfl, fun hc => ?_⟩
  have e : SCIMMixin.handle_operations oracle0 (userHandlers validate0)
      [⟨.vStr "frobnicate", .vNone, .vNone⟩] u0
      = .error (.typeError "unsupported operand types for + NoneType and str") := rfl
  rw [e] at hc
  exact Err.noConfusion (Except.error.inj hc)

/-- C8 (amended): for every operation whose path/value normalization
succeeds, the dispatcher lower-cases the op code and, when the result is
outside {add, remove, replace}, fails with
`BadRequest('Unknown PATCH op "<code>"')` without invoking any handler;
and an op code differing only in case, such as `Replace`, is dispatched
exactly like its lower-case form. -/
theorem C8_unknown_op_badrequest {S : Type}
    (oracle : String → List AttrPath) (h : Handlers S) (st : S)
    (c : String) (pathv valuev : Value) (pv : Option PathResult × NormValue)
    (hp : SCIMMixin.parse_path_and_value oracle pathv valuev = .ok pv)
    (hc : pyStrLower c ∉ VALID_PATCH_OPS) :
    SCIMMixin.handle_operations oracle h [⟨.vStr c, pathv, valuev⟩] st
      = .error (.badRequest ("Unknown PATCH op \x22" ++ pyStrLower c ++ "\x22") none)
    ∧ ∀ (p2 v2 : Value) (st2 : S),
        SCIMMixin.handle_operations oracle h [⟨.vStr "Replace", p2, v2⟩] st2
          = SCIMMixin.handle_operations oracle h [⟨.vStr "replace", p2, v2⟩] st2 := by
  constructor
  · obtain ⟨path, value⟩ := pv
    simp [SCIMMixin.handle_operations, SCIMMixin.apply_operation, hp,
      pyLower, hc]
  · intro p2 v2 st2
    have hR : pyLower (Value.vStr "Replace") = .ok "replace" := rfl
    have hr : pyLower (Value.vStr "replace") = .ok "replace" := rfl
    cases hpp : SCIMMixin.parse_path_and_value oracle p2 v2 with
    | error e =>
      simp [SCIMMixin.handle_operations, SCIMMixin.apply_operation, hpp]
    | ok pvv =>
      obtain ⟨path2, value2⟩ := pvv
      simp [SCIMMixin.handle_operations, SCIMMixin.apply_operation, hpp, hR, hr]

/-- C8 witness: `{op:"frobnicate", path:"userName", value:"x"}` (whose
normalization succeeds) gets the Unknown PATCH op error, and a concrete
`Replace` operation dispatches like `replace`. -/
theorem C8_unknown_op_badrequest_witness :
    SCIMMixin.handle_operations oracle0 (userHandlers validate0)
      [⟨.vStr "frobnicate", .vStr "userName", .vStr "x"⟩] u0
      = .error (.badRequest "Unknown PATCH op \x22frobnicate\x22" none)
    ∧ SCIMMixin.handle_operations oracle0 (userHandlers validate0)
      [⟨.vStr "Replace", .vStr "userName", .vStr "bob"⟩] u0
      = SCIMMixin.handle_operations oracle0 (userHandlers validate0)
      [⟨.vStr "replace", .vStr "userName", .vStr "bob"⟩] u0 :=
  ⟨(C8_unknown_op_badrequest oracle0 (userHandlers validate0) u0
      "frobnicate" (.vStr "userName") (.vStr "x")
      (some (.simple ("userName", none, none)), .raw (.vStr "x"))
      rfl (by decide)).1,
   (C8_unknown_op_badrequest oracle0 (userHandlers validate0) u0
      "frobnicate" (.vStr "userName") (.vStr "x")
      (some (.simple ("userName", none, none)), .raw (.vStr "x"))
      rfl (by decide)).2 (.vStr "userName") (.vStr "bob") u0⟩

/-! ## Path-less replace normalization claim -/

/-- A key whose attribute-path parse yields exactly one fragment resolves to
that simple path. -/
theorem split_path_single (oracle : String → List AttrPath) (k : String)
    (p : AttrPath) (h : oracle (k ++ " eq \x22\x22") = [p]) :
    SCIMMixin.split_path oracle (.vStr k) = .ok (.simple p) := by
  have e : SCIMMixin.split_path oracle (.vStr k)
      = (match oracle (k ++ " eq \x22\x22") with
         | [] => Except.error (Err.nameError "name scim_exceptions is not defined")
         | [ap] => Except.ok (PathResult.simple ap)
         | ap1 :: ap2 :: rest =>
           Except.ok (PathResult.complex k (ap1 :: ap2 :: rest))) := rfl
  rw [e, h]

/-- Under the single-fragment hypothesis every key of a path-less dict is
converted, in order, to its resolved path. -/
theorem convert_dict_keys_ok (oracle : String → List AttrPath)
    (kvs : List (String × Value))
    (hres : ∀ kv ∈ kvs, ∃ p, oracle (kv.1 ++ " eq \x22\x22") = [p]) :
    SCIMMixin.convert_dict_keys oracle kvs
      = .ok (kvs.map (fun kv => (pathOfKey oracle kv.1, kv.2))) := by
  induction kvs with
  | nil => rfl
  | cons kv rest ih =>
    obtain ⟨p, hp⟩ := hres kv (List.mem_cons_self kv rest)
    have hsp := split_path_single oracle kv.1 p hp
    have hpk : pathOfKey oracle kv.1 = .simple p := by
      unfold pathOfKey
      rw [hsp]
    have ihr := ih (fun kv2 h2 => hres kv2 (List.mem_cons_of_mem kv h2))
    cases kv with
    | mk k v =>
      simp only at hsp hpk
      simp [SCIMMixin.convert_dict_keys, hsp, ihr, hpk]

/-- The batched path-less replace reduces to the `handle_replace` loop over
the resolved entries. -/
theorem batched_replace_eq_loop (oracle : String → List AttrPath)
    (validate : Value → Bool) (kvs : List (String × Value)) (u : UserObj)
    (hres : ∀ kv ∈ kvs, ∃ p, oracle (kv.1 ++ " eq \x22\x22") = [p]) :
    SCIMMixin.handle_operations oracle (userHandlers validate)
      [⟨.vStr "replace", .vNone, .vDict kvs⟩] u
    = SCIMUser.replace_loop validate u (kvs.map (hkeyEntry oracle)) := by
  have hparse : SCIMMixin.parse_path_and_value oracle .vNone (.vDict kvs)
      = .ok (none, .pathMap (kvs.map (fun kv => (pathOfKey oracle kv.1, kv.2)))) := by
    have e : SCIMMixin.parse_path_and_value oracle .vNone (.vDict kvs)
        = (match SCIMMixin.convert_dict_keys oracle kvs with
           | .error e => .error e
           | .ok entries => .ok (none, .pathMap entries)) := rfl
    rw [e, convert_dict_keys_ok oracle kvs hres]
  have happ : SCIMMixin.apply_operation oracle (userHandlers validate)
      ⟨.vStr "replace", .vNone, .vDict kvs⟩ u
      = SCIMUser.replace_loop validate u (kvs.map (hkeyEntry oracle)) := by
    unfold SCIMMixin.apply_operation
    rw [hparse]
    show SCIMUser.replace_loop validate u
        ((kvs.map (fun kv => (pathOfKey oracle kv.1, kv.2))).map
          (fun kv => (HKey.ofPath kv.1, kv.2)))
      = SCIMUser.replace_loop validate u (kvs.map (hkeyEntry oracle))
    rw [List.map_map]
    rfl
  cases hrl : SCIMUser.replace_loop validate u (kvs.map (hkeyEntry oracle)) with
  | error e => simp [SCIMMixin.handle_operations, happ, hrl]
  | ok u2 => simp [SCIMMixin.handle_operations, happ, hrl]

/-- The sequence of per-key replace operations reduces to the same
`handle_replace` loop, provided every sub-value is a string. -/
theorem perkey_replace_eq_loop (oracle : String → List AttrPath)
    (validate : Value → Bool) (kvs : List (String × Value)) (u : UserObj)
    (hres : ∀ kv ∈ kvs, ∃ p, oracle (kv.1 ++ " eq \x22\x22") = [p])
    (hstr : ∀ kv ∈ kvs, ∃ s, kv.2 = Value.vStr s) :
    SCIMMixin.handle_operations oracle (userHandlers validate)
      (kvs.map (fun kv => ⟨.vStr "replace", .vStr kv.1, kv.2⟩)) u
    = SCIMUser.replace_loop validate u (kvs.map (hkeyEntry oracle)) := by
  induction kvs generalizing u with
  | nil => rfl
  | cons kv rest ih =>
    obtain ⟨p, hp⟩ := hres kv (List.mem_cons_self kv rest)
    obtain ⟨s, hs⟩ := hstr kv (List.mem_cons_self kv rest)
    have hsp := split_path_single oracle kv.1 p hp
    have hpk : pathOfKey oracle kv.1 = .simple p := by
      unfold pathOfKey
      rw [hsp]
    have hparse : SCIMMixin.parse_path_and_value oracle (.vStr kv.1) (.vStr s)
        = .ok (some (.simple p), .raw (.vStr s)) := by
      have e : SCIMMixin.parse_path_and_value oracle (.vStr kv.1) (.vStr s)
          = (match SCIMMixin.split_path oracle (.vStr kv.1) with
             | .error e => .error e
             | .ok q => .ok (some q, .raw (.vStr s))) := rfl
      rw [e, hsp]
    have happ : SCIMMixin.apply_operation oracle (userHandlers validate)
        ⟨.vStr "replace", .vStr kv.1, .vStr s⟩ u
        = SCIMUser.replace_loop validate u [(HKey.ofPath (.simple p), .vStr s)] := by
      unfold SCIMMixin.apply_operation
      rw [hparse]
      rfl
    have ihr := fun u2 => ih u2
      (fun kv2 h2 => hres kv2 (List.mem_cons_of_mem kv h2))
      (fun kv2 h2 => hstr kv2 (List.mem_cons_of_mem kv h2))
    have hent : hkeyEntry oracle kv = (HKey.ofPath (.simple p), .vStr s) := by
      unfold hkeyEntry
      rw [hpk, hs]
    rw [List.map_cons, List.map_cons, hent, hs]
    simp only [SCIMMixin.handle_operations]
    rw [happ]
    cases hst : SCIMUser.replace_step validate u (HKey.ofPath (.simple p), .vStr s) with
    | error e =>
      simp [SCIMUser.replace_loop, hst]
    | ok u2 =>
      simp [SCIMUser.replace_loop, hst, ihr u2]

/-- C6 counterexample: for the mapping `{"active": true}` (a non-string
sub-value) the batched path-less replace assigns the field and succeeds,
while the claimed-equivalent separate per-key replace operation fails with
`NotImplementedError`, because `handle_replace` only restructures
`{path: value}` when the value is a string. -/
theorem C6_counterexample :
    SCIMMixin.handle_operations oracle0 (userHandlers validate0)
      [⟨.vStr "replace", .vNone, .vDict [("active", .vBool true)]⟩] u0
      = .ok { u0 with is_active := .vBool true }
    ∧ SCIMMixin.handle_operations oracle0 (userHandlers validate0)
      [⟨.vStr "replace", .vStr "active", .vBool true⟩] u0
      = .error (.notImplemented
          (some "PATCH replace operation with value type of \x7btype(value)\x7d is not implemented"))
    ∧ SCIMMixin.handle_operations oracle0 (userHandlers validate0)
      [⟨.vStr "replace", .vNone, .vDict [("active", .vBool true)]⟩] u0
      ≠ SCIMMixin.handle_operations oracle0 (userHandlers validate0)
      [⟨.vStr "replace", .vStr "active", .vBool true⟩] u0 := by
  refine ⟨rfl, rfl, fun hc => ?_⟩
  have e1 : SCIMMixin.handle_operations oracle0 (userHandlers validate0)
      [⟨.vStr "replace", .vNone, .vDict [("active", .vBool true)]⟩] u0
      = .ok { u0 with is_active := .vBool true } := rfl
  have e2 : SCIMMixin.handle_operations oracle0 (userHandlers validate0)
      [⟨.vStr "replace", .vStr "active", .vBool true⟩] u0
      = .error (.notImplemented
          (some "PATCH replace operation with value type of \x7btype(value)\x7d is not implemented")) := rfl
  rw [e1, e2] at hc
  exact Except.noConfusion hc

/-- C6 (amended): a path-less replace whose value is a mapping — every key
resolving to a single attribute path and every sub-value a string — is
applied exactly like the sequence of separate per-key replace operations,
in the same order.  (For non-string sub-values the two differ: the
separate operation fails `NotImplementedError`.) -/
theorem C6_pathless_replace_equiv (oracle : String → List AttrPath)
    (validate : Value → Bool) (kvs : List (String × Value)) (u : UserObj)
    (hres : ∀ kv ∈ kvs, ∃ p, oracle (kv.1 ++ " eq \x22\x22") = [p])
    (hstr : ∀ kv ∈ kvs, ∃ s, kv.2 = Value.vStr s) :
    SCIMMixin.handle_operations oracle (userHandlers validate)
      [⟨.vStr "replace", .vNone, .vDict kvs⟩] u
    = SCIMMixin.handle_operations oracle (userHandlers validate)
      (kvs.map (fun kv => ⟨.vStr "replace", .vStr kv.1, kv.2⟩)) u :=
  (batched_replace_eq_loop oracle validate kvs u hres).trans
    (perkey_replace_eq_loop oracle validate kvs u hres hstr).symm

/-- C6 witness: `{"userName": "bob", "givenName": "Ann"}` applied path-less
equals the two per-key replaces applied in order. -/
theorem C6_pathless_replace_equiv_witness :
    SCIMMixin.handle_operations oracle0 (userHandlers validate0)
      [⟨.vStr "replace", .vNone,
        .vDict [("userName", .vStr "bob"), ("givenName", .vStr "Ann")]⟩] u0
    = SCIMMixin.handle_operations oracle0 (userHandlers validate0)
      [⟨.vStr "replace", .vStr "userName", .vStr "bob"⟩,
       ⟨.vStr "replace", .vStr "givenName", .vStr "Ann"⟩] u0 :=
  C6_pathless_replace_equiv oracle0 validate0
    [("userName", .vStr "bob"), ("givenName", .vStr "Ann")] u0
    (by
      intro kv hkv
      simp only [List.mem_cons, List.not_mem_nil, or_false] at hkv
      rcases hkv with rfl | rfl
      · exact ⟨("userName", none, none), by decide⟩
      · exact ⟨("givenName", none, none), by decide⟩)
    (by
      intro kv hkv
      simp only [List.mem_cons, List.not_mem_nil, or_false] at hkv
      rcases hkv with rfl | rfl
      · exact ⟨"bob", rfl⟩
      · exact ⟨"Ann", rfl⟩)
